import Mathlib

/-!
Verification of the gsd-bridge core: per-plan execution state machine,
lease protocol and eligibility scheduler.  The definitions below are a
shallow embedding of src/gsd_bridge/schemas.py, state.py and
codex_adapter.py.  Timestamps (ISO strings in the source) are modelled as
natural numbers; filesystem reads and writes are modelled as pure values
threaded explicitly; the current clock, freshly generated UUIDs and the
captured git SHA are passed as explicit parameters.
-/

namespace GsdBridge

/-- schemas.py VALID_TRANSITIONS (a dict of sets; list order is immaterial). -/
def VALID_TRANSITIONS : List (String × List String) :=
  [("pending", ["executing"]),
   ("executing", ["blocked", "failed", "verified"]),
   ("blocked", ["executing"]),
   ("failed", ["executing"])]

/-- schemas.py CURRENT_SCHEMA_VERSION. -/
def CURRENT_SCHEMA_VERSION : String := "3.1"

/-- schemas.py DEFAULT_LOCK_LEASE_SECONDS. -/
def DEFAULT_LOCK_LEASE_SECONDS : Nat := 3600

/-- schemas.py VALID_SEVERITIES (a set; list order is immaterial). -/
def VALID_SEVERITIES : List String := ["critical", "high", "medium", "low"]

/-- The cursor dict holding the current task and step. -/
structure Cursor where
  task : Int
  step : Int
deriving DecidableEq

/-- The logical lease stored in the PlanState lock field.  In the source it
is a dict whose entries may be absent or unparseable; runId models
lock.get with run_id possibly missing, and acquiredAt and expiresAt model
the parsed timestamps, with none standing for a missing or unparseable
value (datetime.fromisoformat failure). -/
structure Lease where
  runId : Option String
  acquiredAt : Option Nat
  expiresAt : Option Nat
deriving DecidableEq

/-- One verification result: command, exit_code, log_path, ran_at. -/
structure VerificationEntry where
  command : String
  exitCode : Int
  logPath : String
  ranAt : Nat
deriving DecidableEq

/-- Recovery notes appended by acquire_lease (lease_expired_takeover) and
resume_execution (lease_handoff); the constructors carry exactly the keys
each dict has in the source. -/
inductive RecoveryNote where
  | expiredTakeover (previousRunId : String) (previousAcquiredAt : Option Nat)
      (previousExpiresAt : Option Nat) (takenOverAt : Nat) (newRunId : String)
  | handoff (previousRunId : String) (takenOverAt : Nat) (newRunId : String)
deriving DecidableEq

/-- The executor dict; only run_id is consulted by the core. -/
structure ExecutorInfo where
  runId : Option String
deriving DecidableEq

/-- schemas.py PlanState.  Task numbers are Python ints, hence Int.
created_at and updated_at are always non-empty after dataclass
construction (post-init backfills them), so they are plain Nat here. -/
structure PlanState where
  planId : String
  sourcePlanPath : String
  sourcePlanHash : String
  status : String
  completedTasks : List Int := []
  totalTasks : Int := 0
  lastRunAt : Option Nat := none
  verification : Option (List (String × List VerificationEntry)) := none
  executor : Option ExecutorInfo := none
  blockedReason : Option String := none
  blockedSeverity : Option String := none
  failureReason : Option String := none
  lock : Option Lease := none
  recoveryNotes : List RecoveryNote := []
  cursor : Option Cursor := none
  verifyQuick : Option String := none
  lastErrorOutputPath : Option String := none
  gitShaBefore : Option String := none
  gitShaAfter : Option String := none
  touchedPaths : List String := []
  schemaVersion : String := CURRENT_SCHEMA_VERSION
  createdAt : Nat := 0
  updatedAt : Nat := 0
deriving DecidableEq

/-- state.py init_state: a fresh pending record. -/
def init_state (planId sourcePath sourceHash : String) (totalTasks : Int) : PlanState :=
  { planId := planId
    sourcePlanPath := sourcePath
    sourcePlanHash := sourceHash
    status := "pending"
    totalTasks := totalTasks }

/-- Targets allowed from a status: VALID_TRANSITIONS.get(status, set()). -/
def allowedTargets (status : String) : List String :=
  (VALID_TRANSITIONS.lookup status).getD []

/-- The kwargs accepted by transition at its call sites (start, resume,
mark_failed, mark_blocked); some v means the keyword was passed with
value v, none means it was not passed. -/
structure TransitionKwargs where
  executor : Option (Option ExecutorInfo) := none
  blockedReason : Option (Option String) := none
  blockedSeverity : Option (Option String) := none
  failureReason : Option (Option String) := none
deriving DecidableEq

/-- The setattr loop at the end of state.py transition. -/
def applyKwargs (s : PlanState) (kw : TransitionKwargs) : PlanState :=
  let s1 := match kw.executor with
    | none => s
    | some v => { s with executor := v }
  let s2 := match kw.blockedReason with
    | none => s1
    | some v => { s1 with blockedReason := v }
  let s3 := match kw.blockedSeverity with
    | none => s2
    | some v => { s2 with blockedSeverity := v }
  match kw.failureReason with
  | none => s3
  | some v => { s3 with failureReason := v }

/-- The message of the ValueError raised on an illegal transition (the
sorted list of allowed targets is appended in the source; quoting of the
list is abbreviated here). -/
def invalidTransitionMsg (fromStatus toStatus : String) : String :=
  "Invalid transition: " ++ fromStatus ++ " → " ++ toStatus ++
    ". Allowed: " ++ String.intercalate ", " (allowedTargets fromStatus)

/-- state.py transition: validate against the table, set status and
updated_at, stamp last_run_at on executing, clear the lease on
verified/failed, then apply kwargs. -/
def transition (now : Nat) (s : PlanState) (newStatus : String) (kw : TransitionKwargs) :
    Except String PlanState :=
  if newStatus ∉ allowedTargets s.status then
    .error (invalidTransitionMsg s.status newStatus)
  else
    let s1 := { s with status := newStatus, updatedAt := now }
    let s2 :=
      if newStatus = "executing" then { s1 with lastRunAt := some now }
      else if newStatus = "verified" ∨ newStatus = "failed" then { s1 with lock := none }
      else s1
    .ok (applyKwargs s2 kw)

/-- state.py complete_task: idempotent append (list re-sorted on insert)
and cursor advance, with step -1 as the all-done sentinel. -/
def complete_task (now : Nat) (s : PlanState) (taskNum : Int) : PlanState :=
  let ct :=
    if s.completedTasks.contains taskNum then s.completedTasks
    else List.insertionSort (· ≤ ·) (s.completedTasks ++ [taskNum])
  let c : Cursor :=
    if taskNum + 1 ≤ s.totalTasks then { task := taskNum + 1, step := 0 }
    else { task := taskNum, step := -1 }
  { s with completedTasks := ct, cursor := some c, updatedAt := now }

/-- state.py advance_step. -/
def advance_step (now : Nat) (s : PlanState) (step : Int) : PlanState :=
  match s.cursor with
  | none => { s with cursor := some { task := 1, step := step }, updatedAt := now }
  | some c => { s with cursor := some { c with step := step }, updatedAt := now }

/-- Replace the binding of a key in an association list, preserving
position, or append it: the dict assignment d[k] = v. -/
def dictSetVer (d : List (String × List VerificationEntry)) (k : String)
    (v : List VerificationEntry) : List (String × List VerificationEntry) :=
  match d with
  | [] => [(k, v)]
  | (k0, v0) :: rest =>
      if k0 == k then (k, v) :: rest else (k0, v0) :: dictSetVer rest k v

/-- state.py record_verification.  The legacy single-dict-per-tier shape
handled by the isinstance branch is unrepresentable in the canonically
typed embedding, where every tier already maps to a list. -/
def record_verification (now : Nat) (s : PlanState) (tier command : String)
    (exitCode : Int) (logPath : String) : PlanState :=
  let ver := s.verification.getD []
  let existing := (ver.lookup tier).getD []
  let entry : VerificationEntry :=
    { command := command, exitCode := exitCode, logPath := logPath, ranAt := now }
  { s with verification := some (dictSetVer ver tier (existing ++ [entry])),
           updatedAt := now }

/-- The lease dict written on acquisition. -/
def newLease (now leaseSeconds : Nat) (runId : String) : Lease :=
  { runId := some runId, acquiredAt := some now, expiresAt := some (now + leaseSeconds) }

/-- The lease_expired_takeover recovery note recorded by acquire_lease. -/
def leaseTakeoverNote (now : Nat) (lk : Lease) (newRunId : String) : RecoveryNote :=
  RecoveryNote.expiredTakeover (lk.runId.getD "unknown") lk.acquiredAt lk.expiresAt now newRunId

/-- state.py acquire_lease.  The caller resolves run_id (the uuid fallback
for a missing run_id is resolved before the call in the adapter).  An
existing lease whose parsed expiry lies strictly in the future is an
error; otherwise a takeover note is appended and the lease replaced. -/
def acquire_lease (now leaseSeconds : Nat) (s : PlanState) (runId : String) :
    Except String PlanState :=
  match s.lock with
  | none =>
      .ok { s with lock := some (newLease now leaseSeconds runId), updatedAt := now }
  | some lk =>
      match lk.expiresAt with
      | some exp =>
          if now < exp then
            .error ("Plan " ++ s.planId ++ " is already leased by run_id=" ++
              lk.runId.getD "None")
          else
            .ok { s with recoveryNotes := s.recoveryNotes ++ [leaseTakeoverNote now lk runId],
                         lock := some (newLease now leaseSeconds runId), updatedAt := now }
      | none =>
          .ok { s with recoveryNotes := s.recoveryNotes ++ [leaseTakeoverNote now lk runId],
                       lock := some (newLease now leaseSeconds runId), updatedAt := now }

/-- state.py renew_lease. -/
def renew_lease (now leaseSeconds : Nat) (s : PlanState) (runId : String) :
    Except String PlanState :=
  match s.lock with
  | none => .error ("No active lease on plan " ++ s.planId)
  | some lk =>
      if lk.runId ≠ some runId then
        .error ("Lease held by " ++ lk.runId.getD "None" ++ ", not " ++ runId)
      else
        .ok { s with lock := some { lk with expiresAt := some (now + leaseSeconds) },
                     updatedAt := now }

/-- state.py release_lease. -/
def release_lease (now : Nat) (s : PlanState) : PlanState :=
  { s with lock := none, updatedAt := now }

/-- The per-item loop of state.py _validate_completed_tasks: the first
offending item raises; a total_tasks of 0 (falsy) disables the bound. -/
def checkCompletedItems : List Int → Int → Except String Unit
  | [], _ => .ok ()
  | i :: rest, total =>
      if i < 1 then .error "completed_tasks must be a list of positive integers"
      else if total ≠ 0 ∧ total < i then
        .error ("completed_tasks entry " ++ toString i ++ " exceeds total_tasks=" ++
          toString total)
      else checkCompletedItems rest total

/-- state.py _validate_completed_tasks: validate every item, then return
sorted(set(value)). -/
def validateCompletedTasks (value : List Int) (total : Int) : Except String (List Int) :=
  match checkCompletedItems value total with
  | .error e => .error e
  | .ok _ => .ok (List.insertionSort (· ≤ ·) value.dedup)

/-- Python str whitespace (space, tab, newline, carriage return, vertical
tab, form feed). -/
def isPyWhitespace (c : Char) : Bool :=
  c == ' ' || c == '\t' || c == '\n' || c == '\r' || c == '\x0b' || c == '\x0c'

/-- Python str.strip(): drop whitespace from both ends. -/
def strTrim (s : String) : String :=
  String.mk (((s.data.dropWhile isPyWhitespace).reverse.dropWhile isPyWhitespace).reverse)

/-- ASCII lower-casing of one character. -/
def charLower (c : Char) : Char :=
  if 65 ≤ c.toNat ∧ c.toNat ≤ 90 then Char.ofNat (c.toNat + 32) else c

/-- Python str.lower() over the character list. -/
def strLower (s : String) : String :=
  String.mk (s.data.map charLower)

/-- Split a character list on a separator character, Python str.split
with an explicit separator (empty fields are kept). -/
def splitOnCharAux (sep : Char) : List Char → List Char → List (List Char)
  | [], acc => [acc.reverse]
  | c :: rest, acc =>
      if c == sep then acc.reverse :: splitOnCharAux sep rest []
      else splitOnCharAux sep rest (c :: acc)

/-- Split a string on a separator character. -/
def splitOnChar (sep : Char) (s : String) : List String :=
  (splitOnCharAux sep s.data []).map String.mk

/-- Accumulate decimal digits; none on the first non-digit. -/
def digitsValAux : List Char → Nat → Option Nat
  | [], acc => some acc
  | c :: rest, acc =>
      if 48 ≤ c.toNat ∧ c.toNat ≤ 57 then digitsValAux rest (acc * 10 + (c.toNat - 48))
      else none

/-- Value of a non-empty all-digit character list. -/
def digitsVal (l : List Char) : Option Nat :=
  match l with
  | [] => none
  | _ => digitsValAux l 0

/-- Python int(str): optional surrounding whitespace, optional sign, at
least one digit. -/
def pyInt (s : String) : Option Int :=
  let l := ((s.data.dropWhile isPyWhitespace).reverse.dropWhile isPyWhitespace).reverse
  match l with
  | '-' :: rest => (digitsVal rest).map (fun n => -(n : Int))
  | '+' :: rest => (digitsVal rest).map (fun n => (n : Int))
  | _ => (digitsVal l).map (fun n => (n : Int))

/-- schemas.py _parse_version: dotted string to a tuple of ints, (0,) on
any parse failure. -/
def parseVersion (v : String) : List Int :=
  let parts := (splitOnChar '.' v).map pyInt
  if parts.any Option.isNone then [0] else parts.map (·.getD 0)

/-- Python tuple comparison, lexicographic with shorter-prefix-first. -/
def versionLt : List Int → List Int → Bool
  | [], [] => false
  | [], _ :: _ => true
  | _ :: _, [] => false
  | a :: as, b :: bs => if a < b then true else if b < a then false else versionLt as bs

/-- Truthiness of an optional string field in a dict (None and the empty
string are falsy). -/
def strTruthy (o : Option String) : Bool := o.getD "" ≠ ""

/-- schemas.py migrate_legacy_plan_state on a canonically typed record:
the v1 to v2 verification reshaping is the identity on the typed field;
a failed record with a stale blocked_reason and no failure_reason has the
reason moved; an older schema_version is bumped to current (every field
the v2 to v3 step would setdefault is already present on a full record). -/
def migrate_legacy_plan_state (s : PlanState) : PlanState :=
  let s1 :=
    if s.status = "failed" ∧ ¬ strTruthy s.failureReason ∧ strTruthy s.blockedReason then
      { s with failureReason := s.blockedReason, blockedReason := none }
    else s
  if versionLt (parseVersion s1.schemaVersion) (parseVersion CURRENT_SCHEMA_VERSION) then
    { s1 with schemaVersion := CURRENT_SCHEMA_VERSION }
  else s1

/-- state.py write_state as it affects the stored record: updated_at is
refreshed, then the record is serialized atomically. -/
def write_state (now : Nat) (s : PlanState) : PlanState :=
  { s with updatedAt := now }

/-- state.py read_state on a record previously serialized by write_state:
JSON round-trips the dict faithfully, from_dict keeps every dataclass
field, so reading applies exactly the legacy migration. -/
def read_back (s : PlanState) : PlanState :=
  migrate_legacy_plan_state s

/-- Writing a state then reading the same file back. -/
def roundTrip (now : Nat) (s : PlanState) : PlanState :=
  read_back (write_state now s)

/-- state.py _release_lock decision: the parsed lock-file payload is the
dict of the file content (none when missing, unparseable or not an
object), modelled as an association list so that the truthiness of an
empty dict is visible.  The result is true when the file is deleted. -/
def releaseLockDeletes (payload : Option (List (String × String))) (ownerId : String) :
    Bool :=
  match payload with
  | none => true
  | some d => !(d ≠ [] ∧ d.lookup "owner_id" ≠ some ownerId : Bool)

/-- A state-file slot together with an operation on it: the adapter ops
read the file under the filesystem lock, run the pure mutation, and write
back only on success, so a raised error leaves the stored record as it
was.  The result pairs the stored record after the call with the error
message, if any. -/
def runOp (op : PlanState → Except String PlanState) (store : Option PlanState) :
    Option PlanState × Option String :=
  match store with
  | none => (none, some "State file not found")
  | some s =>
      match op s with
      | .ok s2 => (some s2, none)
      | .error e => (some s, some e)

/-- codex_adapter.py run_id resolution: (executor_info or {}).get("run_id")
or str(uuid.uuid4()); a missing or empty run_id falls back to a fresh
uuid, passed here explicitly. -/
def resolveRunId (executorInfo : Option ExecutorInfo) (freshUuid : String) : String :=
  match executorInfo with
  | none => freshUuid
  | some e =>
      match e.runId with
      | none => freshUuid
      | some r => if r = "" then freshUuid else r

/-- codex_adapter.py _lease_is_expired: a missing or unparseable expiry is
expired; otherwise expired when the expiry is not in the future. -/
def leaseIsExpired (now : Nat) (lk : Lease) : Bool :=
  match lk.expiresAt with
  | none => true
  | some t => t ≤ now

/-- codex_adapter.py _ensure_no_source_drift: currentSourceHash is the
content hash of the source plan document, none when the file is absent
(in which case the check is skipped). -/
def ensureNoSourceDrift (currentSourceHash : Option String) (s : PlanState) :
    Except String Unit :=
  match currentSourceHash with
  | none => .ok ()
  | some h =>
      if h ≠ s.sourcePlanHash then
        .error ("Cannot continue: source plan drift detected for " ++ s.planId ++
          ". Re-export plans before execution.")
      else .ok ()

/-- codex_adapter.py start_execution (pure core: the lock context, the git
SHA capture and the write are externalized). -/
def start_execution (now leaseSeconds : Nat) (currentSourceHash : Option String)
    (executorInfo : Option ExecutorInfo) (freshUuid : String) (gitSha : Option String)
    (s : PlanState) : Except String PlanState :=
  if s.status ≠ "pending" then
    .error ("Start requires pending state, got: " ++ s.status)
  else
    match ensureNoSourceDrift currentSourceHash s with
    | .error e => .error e
    | .ok _ =>
        let runId := resolveRunId executorInfo freshUuid
        match acquire_lease now leaseSeconds s runId with
        | .error e => .error e
        | .ok s1 =>
            let s2 := { s1 with cursor := some { task := 1, step := 0 },
                                gitShaBefore := gitSha }
            transition now s2 "executing"
              { executor := some executorInfo, blockedReason := some none }

/-- codex_adapter.py resume_execution: an unexpired lease held by a
different, non-empty run identity is handed off (note appended, lease
cleared) before acquire_lease runs. -/
def resume_execution (now leaseSeconds : Nat) (currentSourceHash : Option String)
    (executorInfo : Option ExecutorInfo) (freshUuid : String) (s : PlanState) :
    Except String PlanState :=
  if ¬ (s.status = "blocked" ∨ s.status = "failed") then
    .error ("Resume requires blocked/failed state, got: " ++ s.status)
  else
    match ensureNoSourceDrift currentSourceHash s with
    | .error e => .error e
    | .ok _ =>
        let runId := resolveRunId executorInfo freshUuid
        let s1 :=
          match s.lock with
          | some lk =>
              if leaseIsExpired now lk then s
              else
                match lk.runId with
                | some cur =>
                    if cur ≠ "" ∧ cur ≠ runId then
                      let note := RecoveryNote.handoff cur now runId
                      { s with recoveryNotes := s.recoveryNotes ++ [note], lock := none }
                    else s
                | none => s
          | none => s
        match acquire_lease now leaseSeconds s1 runId with
        | .error e => .error e
        | .ok s2 =>
            transition now s2 "executing"
              { executor := some executorInfo, blockedReason := some none }

/-- codex_adapter.py complete_task (the public op around the state helper). -/
def completeTaskOp (now : Nat) (taskNum : Int) (s : PlanState) : Except String PlanState :=
  if s.status ≠ "executing" then
    .error ("complete-task requires executing state, got: " ++ s.status)
  else .ok (complete_task now s taskNum)

/-- codex_adapter.py advance_step (the public op around the state helper). -/
def advanceStepOp (now : Nat) (step : Int) (s : PlanState) : Except String PlanState :=
  if s.status ≠ "executing" then
    .error ("advance-step requires executing state, got: " ++ s.status)
  else .ok (advance_step now s step)

/-- codex_adapter.py mark_verified: requires executing, enough distinct
completed tasks, and at least one tier with a recorded result; captures
the post-execution git SHA, transitions and releases the lease. -/
def mark_verified (now : Nat) (gitSha : Option String) (s : PlanState) :
    Except String PlanState :=
  if s.status ≠ "executing" then
    .error ("mark-verified requires executing state, got: " ++ s.status)
  else if (s.completedTasks.dedup.length : Int) < s.totalTasks then
    .error "Cannot mark verified: not all tasks are completed"
  else if ¬ (s.verification.getD []).any (fun p => !p.2.isEmpty) then
    .error "Cannot mark verified: verification results are required"
  else
    match transition now { s with gitShaAfter := gitSha } "verified" {} with
    | .error e => .error e
    | .ok s2 => .ok (release_lease now s2)

/-- codex_adapter.py mark_failed. -/
def mark_failed (now : Nat) (s : PlanState) (reason : String) : Except String PlanState :=
  match transition now s "failed"
      { failureReason := some (some reason), blockedReason := some none } with
  | .error e => .error e
  | .ok s1 => .ok (release_lease now s1)

/-- codex_adapter.py mark_blocked (state mutation only; the blocker
markdown document it also renders is out of scope).  An invalid severity
is replaced by high before the transition. -/
def mark_blocked (now : Nat) (s : PlanState) (reason severity : String) :
    Except String PlanState :=
  let sev := if VALID_SEVERITIES.contains severity then severity else "high"
  transition now s "blocked"
    { blockedReason := some (some reason), blockedSeverity := some (some sev),
      failureReason := some none }

/-- schemas.py ManifestEntry (scheduling metadata).  The batching and
execution_contract fields, unused by the scheduler, are omitted. -/
structure ManifestEntry where
  planId : String
  wave : Int
  phase : String
  planNumber : Int
  priority : Int
  planPath : String := ""
  statePath : String := ""
  sourcePath : String := ""
  sourceHash : String := ""
  dependsOn : List String := []
  batchSize : Int := 3
  status : String := "pending"
deriving DecidableEq

/-- Replace or append a binding in a string dict. -/
def dictSetStr (d : List (String × String)) (k v : String) : List (String × String) :=
  match d with
  | [] => [(k, v)]
  | (k0, v0) :: rest =>
      if k0 == k then (k, v) :: rest else (k0, v0) :: dictSetStr rest k v

/-- codex_adapter.py _current_status_by_plan: the live status dict, read
fresh from the state store (a map from plan id to the stored record),
falling back to the manifest mirror or no-state when no file exists. -/
def currentStatusByPlan (store : String → Option PlanState)
    (plans : List ManifestEntry) : List (String × String) :=
  plans.foldl
    (fun acc e =>
      match store e.planId with
      | none => dictSetStr acc e.planId (if e.status = "" then "no-state" else e.status)
      | some st => dictSetStr acc e.planId st.status)
    []

/-- codex_adapter.py _lower_waves_verified. -/
def lowerWavesVerified (entry : ManifestEntry) (plans : List ManifestEntry)
    (statuses : List (String × String)) : Bool :=
  plans.all fun other =>
    !(other.wave < entry.wave : Bool) || (statuses.lookup other.planId == some "verified")

/-- Token normalization: str(token).strip().lower(). -/
def normToken (t : String) : String := strLower (strTrim t)

/-- Python format {:02d}: zero-pad to width two (a sign counts toward the
width, so every negative is already wide enough). -/
def zeroPad2 (n : Int) : String :=
  let s := toString n
  if s.length < 2 then "0" ++ s else s

/-- pathlib Path(p).name: the last path component (empty and single-dot
components are dropped when parsing; the parent-marker special case is
not modelled). -/
def pathName (p : String) : String :=
  ((splitOnChar '/' p).filter (fun c => c ≠ "" ∧ c ≠ ".")).getLast?.getD ""

/-- Index of the last dot in a string, if any. -/
def lastDotIdx (s : String) : Option Nat :=
  (List.range s.length).foldl
    (fun acc i => if s.toList.get? i = some '.' then some i else acc) none

/-- pathlib Path(p).stem: the final component with its last suffix
removed; a dot at the start or end of the name is not a suffix. -/
def pathStem (p : String) : String :=
  let n := pathName p
  match lastDotIdx n with
  | none => n
  | some i =>
      if 0 < i ∧ i < n.length - 1 then ((n.toList.take i).asString) else n

/-- Insert into a set represented as a duplicate-free list. -/
def setInsert (l : List String) (x : String) : List String :=
  if l.contains x then l else l ++ [x]

/-- Replace or extend a token binding in the dependency lookup. -/
def dictSetTokens (lookup : List (String × List String)) (key pid : String) :
    List (String × List String) :=
  match lookup with
  | [] => [(key, [pid])]
  | (k0, v0) :: rest =>
      if k0 == key then (k0, setInsert v0 pid) :: rest
      else (k0, v0) :: dictSetTokens rest key pid

/-- The token set one manifest entry contributes to the lookup.  The
source builds these as a Python set; list order and duplicates are
immaterial because insertion into the lookup is idempotent. -/
def entryTokens (e : ManifestEntry) : List String :=
  [e.planId, toString e.planNumber,
   e.phase ++ ":" ++ toString e.planNumber,
   e.phase ++ "-" ++ zeroPad2 e.planNumber,
   e.sourcePath, pathName e.sourcePath, pathStem e.sourcePath]

/-- Add all normalized, non-empty tokens of one entry to the lookup. -/
def addEntryTokens (lookup : List (String × List String)) (e : ManifestEntry) :
    List (String × List String) :=
  (entryTokens e).foldl
    (fun acc tok =>
      let normalized := normToken tok
      if normalized = "" then acc else dictSetTokens acc normalized e.planId)
    lookup

/-- The lookup from normalized dependency token to the set of matching
plan ids, over all manifest entries. -/
def buildDepLookup (plans : List ManifestEntry) : List (String × List String) :=
  plans.foldl addEntryTokens []

/-- The set of plan ids a normalized token matches. -/
def lookupTokenIds (lookup : List (String × List String)) (token : String) : List String :=
  (lookup.lookup token).getD []

/-- The per-token loop of codex_adapter.py _dependencies_verified: zero
matches means unmet (false), more than one distinct match is the
fail-fast ambiguity error, one match requires that plan to be verified.
The source formats the sorted match list into the message; the quoting is
abbreviated here. -/
def checkDeps (entry : ManifestEntry) (lookup : List (String × List String))
    (statuses : List (String × String)) : List String → Except String Bool
  | [] => .ok true
  | dep :: rest =>
      match lookupTokenIds lookup (normToken dep) with
      | [] => .ok false
      | [pid] =>
          if statuses.lookup pid = some "verified" then
            checkDeps entry lookup statuses rest
          else .ok false
      | ids@(_ :: _ :: _) =>
          .error ("Ambiguous dependency " ++ dep ++ " for " ++ entry.planId ++
            ": matches " ++ String.intercalate ", " ids)

/-- codex_adapter.py _dependencies_verified. -/
def dependenciesVerified (entry : ManifestEntry) (plans : List ManifestEntry)
    (statuses : List (String × String)) : Except String Bool :=
  if entry.dependsOn.isEmpty then .ok true
  else checkDeps entry (buildDepLookup plans) statuses entry.dependsOn

/-- True when the entry passes the plan_id filter (an empty filter string
is falsy in the source and disables the filter). -/
def passesPlanIdFilter (planIdFilter : Option String) (e : ManifestEntry) : Bool :=
  match planIdFilter with
  | none => true
  | some p => if p = "" then true else e.planId == p

/-- True when the entry passes the wave filter. -/
def passesWaveFilter (waveFilter : Option Int) (e : ManifestEntry) : Bool :=
  match waveFilter with
  | none => true
  | some w => e.wave == w

/-- The loop body of codex_adapter.py get_eligible_plans, in source order:
skip non-pending, apply the plan_id filter, apply the wave filter, check
the wave barrier, then check dependencies (which may abort the whole
computation with the ambiguity error). -/
def eligLoop (plans : List ManifestEntry) (statuses : List (String × String))
    (waveFilter : Option Int) (planIdFilter : Option String) :
    List ManifestEntry → Except String (List ManifestEntry)
  | [] => .ok []
  | entry :: rest =>
      if statuses.lookup entry.planId ≠ some "pending" then
        eligLoop plans statuses waveFilter planIdFilter rest
      else if ¬ passesPlanIdFilter planIdFilter entry then
        eligLoop plans statuses waveFilter planIdFilter rest
      else if ¬ passesWaveFilter waveFilter entry then
        eligLoop plans statuses waveFilter planIdFilter rest
      else if ¬ lowerWavesVerified entry plans statuses then
        eligLoop plans statuses waveFilter planIdFilter rest
      else
        match dependenciesVerified entry plans statuses with
        | .error e => .error e
        | .ok true =>
            match eligLoop plans statuses waveFilter planIdFilter rest with
            | .error e => .error e
            | .ok tail => .ok (entry :: tail)
        | .ok false => eligLoop plans statuses waveFilter planIdFilter rest

/-- codex_adapter.py get_eligible_plans: read the manifest, compute the
live statuses from the state store, then run the loop over the plans. -/
def get_eligible_plans (store : String → Option PlanState) (plans : List ManifestEntry)
    (waveFilter : Option Int) (planIdFilter : Option String) :
    Except String (List ManifestEntry) :=
  eligLoop plans (currentStatusByPlan store plans) waveFilter planIdFilter plans

/-! Claim C1: the transition table. -/

/-- C1: for every PlanState and requested status, transition succeeds
exactly when the pair (current status, requested status) is in the table
pending→executing, executing→verified|failed|blocked, blocked→executing,
failed→executing; every other pair raises a logic error naming the
illegal pair, and a rejected transition leaves the stored record
unchanged. -/
theorem c1_transition_table (now : Nat) (s : PlanState) (ns : String)
    (kw : TransitionKwargs) :
    (allowedTargets "pending" = ["executing"] ∧
     allowedTargets "executing" = ["blocked", "failed", "verified"] ∧
     allowedTargets "blocked" = ["executing"] ∧
     allowedTargets "failed" = ["executing"] ∧
     allowedTargets "verified" = []) ∧
    ((∃ s2, transition now s ns kw = Except.ok s2) ↔ ns ∈ allowedTargets s.status) ∧
    (ns ∉ allowedTargets s.status →
      transition now s ns kw = Except.error (invalidTransitionMsg s.status ns) ∧
      (∃ pre post,
        invalidTransitionMsg s.status ns = pre ++ (s.status ++ " → " ++ ns) ++ post) ∧
      runOp (fun st => transition now st ns kw) (some s) =
        (some s, some (invalidTransitionMsg s.status ns))) := by
  refine ⟨by decide, ⟨?_, ?_⟩, ?_⟩
  · rintro ⟨s2, h⟩
    by_contra hn
    simp only [transition, if_pos hn] at h
    exact Except.noConfusion h
  · intro h
    simp only [transition, if_neg (not_not_intro h)]
    exact ⟨_, rfl⟩
  · intro hn
    refine ⟨by simp only [transition, if_pos hn], ?_, ?_⟩
    · refine ⟨"Invalid transition: ",
        ". Allowed: " ++ String.intercalate ", " (allowedTargets s.status), ?_⟩
      simp only [invalidTransitionMsg, String.append_assoc]
    · simp only [runOp, transition, if_pos hn]

/-- C1 witness: a legal pair (pending → executing) succeeds, and an
illegal pair (verified → executing) is rejected with the pair-naming
error. -/
theorem c1_transition_table_witness :
    (∃ s2, transition 0 (init_state "p" "src" "h" 1) "executing" {} = Except.ok s2) ∧
    transition 0 { init_state "p" "src" "h" 1 with status := "verified" } "executing" {} =
      Except.error (invalidTransitionMsg "verified" "executing") := by
  constructor
  · exact (c1_transition_table 0 (init_state "p" "src" "h" 1) "executing" {}).2.1.mpr
      (by decide)
  · exact ((c1_transition_table 0
      { init_state "p" "src" "h" 1 with status := "verified" } "executing" {}).2.2
      (by decide)).1

/-! Claim C2: the mark_verified preconditions. -/

/-- The data-model invariant on completed_tasks: a deduplicated, sorted
list of positive integers bounded by total_tasks. -/
def ctInvariant (s : PlanState) : Prop :=
  s.completedTasks.Nodup ∧ List.Sorted (· ≤ ·) s.completedTasks ∧
    ∀ t ∈ s.completedTasks, 1 ≤ t ∧ t ≤ s.totalTasks

/-- A duplicate-free list of integers drawn from 1..total has length at
least total exactly when it covers all of 1..total. -/
theorem nodup_length_iff_covers (l : List Int) (total : Int) (hnd : l.Nodup)
    (hb : ∀ t ∈ l, 1 ≤ t ∧ t ≤ total) :
    total ≤ (l.length : Int) ↔ ∀ i : Int, 1 ≤ i → i ≤ total → i ∈ l := by
  have hcard : l.toFinset.card = l.length := List.toFinset_card_of_nodup hnd
  have hIcc : (Finset.Icc (1 : Int) total).card = total.toNat := by
    rw [Int.card_Icc]
    congr 1
    ring
  constructor
  · intro hlen i h1 hi
    have hsub : l.toFinset ⊆ Finset.Icc (1 : Int) total := by
      intro x hx
      rw [List.mem_toFinset] at hx
      exact Finset.mem_Icc.mpr ⟨(hb x hx).1, (hb x hx).2⟩
    have hle : (Finset.Icc (1 : Int) total).card ≤ l.toFinset.card := by
      rw [hcard, hIcc]
      omega
    have heq : l.toFinset = Finset.Icc (1 : Int) total :=
      Finset.eq_of_subset_of_card_le hsub hle
    have : i ∈ l.toFinset := by
      rw [heq]
      exact Finset.mem_Icc.mpr ⟨h1, hi⟩
    exact List.mem_toFinset.mp this
  · intro hcov
    have hsub2 : Finset.Icc (1 : Int) total ⊆ l.toFinset := by
      intro i hi
      rw [List.mem_toFinset]
      obtain ⟨hi1, hi2⟩ := Finset.mem_Icc.mp hi
      exact hcov i hi1 hi2
    have := Finset.card_le_card hsub2
    rw [hcard, hIcc] at this
    omega

/-- The concrete executing state refuting the coverage reading of the
mark_verified task precondition: two distinct completed tasks, neither of
which is task 1, with total_tasks = 2. -/
def c2state : PlanState :=
  { init_state "p1" "src" "h" 2 with
      status := "executing"
      completedTasks := [2, 3]
      verification :=
        some [("quick", [{ command := "c", exitCode := 0, logPath := "", ranAt := 0 }])] }

/-- C2 counterexample: the completed-task set of c2state does not cover
1..total_tasks (task 1 is missing), yet mark_verified succeeds, because
the source only compares the count of distinct completed tasks against
total_tasks. -/
theorem c2_counterexample :
    (¬ ∀ i : Int, 1 ≤ i → i ≤ c2state.totalTasks → i ∈ c2state.completedTasks) ∧
    ∃ s2, mark_verified 0 none c2state = Except.ok s2 := by
  constructor
  · intro h
    have h1 := h 1 (by decide) (by decide)
    simp [c2state, init_state] at h1
  · exact ⟨_, rfl⟩

/-- C2 (amended): for every executing state, mark_verified raises a logic
error whenever the number of distinct completed tasks is less than
total_tasks (under the completed_tasks invariant this is exactly when
some task index in 1..total_tasks is missing); it raises separately when
no verification tier has a recorded result even if tasks are complete;
and when both preconditions hold it transitions the plan to verified and
clears the Lease. -/
theorem c2_mark_verified (now : Nat) (gitSha : Option String) (s : PlanState)
    (hex : s.status = "executing") :
    ((s.completedTasks.dedup.length : Int) < s.totalTasks →
      mark_verified now gitSha s =
        Except.error "Cannot mark verified: not all tasks are completed") ∧
    (s.totalTasks ≤ (s.completedTasks.dedup.length : Int) →
      ((s.verification.getD []).any fun p => !p.2.isEmpty) = false →
      mark_verified now gitSha s =
        Except.error "Cannot mark verified: verification results are required") ∧
    (s.totalTasks ≤ (s.completedTasks.dedup.length : Int) →
      ((s.verification.getD []).any fun p => !p.2.isEmpty) = true →
      ∃ s2, mark_verified now gitSha s = Except.ok s2 ∧
        s2.status = "verified" ∧ s2.lock = none) ∧
    (ctInvariant s →
      (s.totalTasks ≤ (s.completedTasks.dedup.length : Int) ↔
        ∀ i : Int, 1 ≤ i → i ≤ s.totalTasks → i ∈ s.completedTasks)) := by
  refine ⟨?_, ?_, ?_, ?_⟩
  · intro hlt
    simp [mark_verified, hex, hlt]
  · intro hge hany
    simp [mark_verified, hex, not_lt.mpr hge, hany]
  · intro hge hany
    refine ⟨{ s with gitShaAfter := gitSha, status := "verified", updatedAt := now, lock := none }, ?_, rfl, rfl⟩
    simp only [mark_verified, hex]
    rw [if_neg (by simp), if_neg (by omega), if_neg (by simp [hany])]
    simp only [transition]
    rw [if_neg (by decide)]
    rfl
  · intro hinv
    have hnd := hinv.1
    have hb := hinv.2.2
    rw [List.dedup_eq_self.mpr hnd]
    exact nodup_length_iff_covers s.completedTasks s.totalTasks hnd hb

/-- A healthy executing state: one task, completed, with a quick result. -/
def c2goodState : PlanState :=
  { init_state "p1" "src" "h" 1 with
      status := "executing"
      completedTasks := [1]
      verification :=
        some [("quick", [{ command := "c", exitCode := 0, logPath := "", ranAt := 0 }])] }

/-- C2 witness: with all tasks complete and a recorded result,
mark_verified succeeds, sets verified and clears the lease. -/
theorem c2_mark_verified_witness :
    ∃ s2, mark_verified 0 none c2goodState = Except.ok s2 ∧
      s2.status = "verified" ∧ s2.lock = none :=
  (c2_mark_verified 0 none c2goodState rfl).2.2.1 (by decide) (by decide)

/-! Claim C3: the strict wave barrier. -/

/-- Every entry of a successful eligibility result passed the wave
barrier against the whole manifest. -/
theorem eligLoop_ok_barrier (plans : List ManifestEntry)
    (statuses : List (String × String)) (wf : Option Int) (pf : Option String) :
    ∀ (todo : List ManifestEntry) (l : List ManifestEntry),
      eligLoop plans statuses wf pf todo = Except.ok l →
      ∀ x ∈ l, lowerWavesVerified x plans statuses = true := by
  intro todo
  induction todo with
  | nil =>
      intro l h x hx
      simp only [eligLoop] at h
      cases h
      simp at hx
  | cons entry rest ih =>
      intro l h x hx
      simp only [eligLoop] at h
      split at h
      · exact ih l h x hx
      · split at h
        · exact ih l h x hx
        · split at h
          · exact ih l h x hx
          · split at h
            · exact ih l h x hx
            · rename_i hp hf hw hbar
              split at h
              · exact Except.noConfusion h
              · split at h
                · exact Except.noConfusion h
                · rename_i heqTail
                  cases h
                  rcases List.mem_cons.mp hx with hx | hx
                  · subst hx
                    simpa using not_not.mp hbar
                  · exact ih _ heqTail x hx
              · exact ih l h x hx

/-- C3: a plan with live status pending is excluded from the eligible set
whenever any other manifest plan with a strictly lower wave number does
not have live status verified, regardless of declared dependencies. -/
theorem c3_wave_barrier (store : String → Option PlanState)
    (plans : List ManifestEntry) (wf : Option Int) (pf : Option String)
    (entry other : ManifestEntry) (l : List ManifestEntry)
    (hother : other ∈ plans)
    (hw : other.wave < entry.wave)
    (hnv : (currentStatusByPlan store plans).lookup other.planId ≠ some "verified")
    (_hpend : (currentStatusByPlan store plans).lookup entry.planId = some "pending")
    (hok : get_eligible_plans store plans wf pf = Except.ok l) :
    entry ∉ l := by
  intro hmem
  have hbar := eligLoop_ok_barrier plans (currentStatusByPlan store plans) wf pf plans l
    hok entry hmem
  unfold lowerWavesVerified at hbar
  rw [List.all_eq_true] at hbar
  have h2 := hbar other hother
  rw [Bool.or_eq_true] at h2
  rcases h2 with h2 | h2
  · rw [Bool.not_eq_true', decide_eq_false_iff_not] at h2
    exact h2 hw
  · exact hnv (by simpa using h2)

/-- A wave-1 plan whose mirrored status is executing (no state file). -/
def c3A : ManifestEntry :=
  { planId := "a", wave := 1, phase := "01", planNumber := 1, priority := 1011,
    status := "executing" }

/-- A wave-2 pending plan with no declared dependencies. -/
def c3B : ManifestEntry :=
  { planId := "b", wave := 2, phase := "02", planNumber := 1, priority := 2011,
    status := "pending" }

/-- The two-wave manifest of the eligibility scenario. -/
def c3plans : List ManifestEntry := [c3A, c3B]

/-- C3 witness: with the wave-1 plan not verified, the wave-2 pending
plan is not in the computed eligible set. -/
theorem c3_wave_barrier_witness : c3B ∉ ([] : List ManifestEntry) :=
  c3_wave_barrier (fun _ => none) c3plans none none c3B c3A []
    (by decide) (by decide) (by decide) (by decide) rfl

/-! Claim C4: the fail-fast dependency ambiguity error. -/

/-- The dependency check errors only on a token matching at least two
distinct plan ids. -/
theorem checkDeps_error_ambiguous (entry : ManifestEntry)
    (lookup : List (String × List String)) (statuses : List (String × String)) :
    ∀ (deps : List String) (m : String),
      checkDeps entry lookup statuses deps = Except.error m →
      ∃ dep ∈ deps, 2 ≤ (lookupTokenIds lookup (normToken dep)).length := by
  intro deps
  induction deps with
  | nil =>
      intro m h
      exact Except.noConfusion h
  | cons dep rest ih =>
      intro m h
      simp only [checkDeps] at h
      split at h
      · exact Except.noConfusion h
      · split at h
        · obtain ⟨d, hd, hlen⟩ := ih m h
          exact ⟨d, List.mem_cons_of_mem dep hd, hlen⟩
        · exact Except.noConfusion h
      · rename_i ids hid
        exact ⟨dep, List.mem_cons_self dep rest, by rw [hid]; simp⟩

/-- An entry that survives the pending check, the caller filters and the
wave barrier, and whose dependency check raises, aborts the whole
eligibility loop. -/
theorem eligLoop_aborts (plans : List ManifestEntry)
    (statuses : List (String × String)) (wf : Option Int) (pf : Option String)
    (entry : ManifestEntry) (m : String)
    (hpend : statuses.lookup entry.planId = some "pending")
    (hpf : passesPlanIdFilter pf entry = true)
    (hwf : passesWaveFilter wf entry = true)
    (hbar : lowerWavesVerified entry plans statuses = true)
    (hdep : dependenciesVerified entry plans statuses = Except.error m) :
    ∀ todo, entry ∈ todo →
      ∃ m2, eligLoop plans statuses wf pf todo = Except.error m2 := by
  intro todo
  induction todo with
  | nil =>
      intro h
      cases h
  | cons e rest ih =>
      intro hmem
      rcases List.mem_cons.mp hmem with heq | hmemR
      · subst heq
        refine ⟨m, ?_⟩
        simp only [eligLoop]
        rw [if_neg (not_not_intro hpend), if_neg (by simp [hpf]), if_neg (by simp [hwf]),
          if_neg (by simp [hbar]), hdep]
      · by_cases h1 : statuses.lookup e.planId ≠ some "pending"
        · obtain ⟨m2, hm2⟩ := ih hmemR
          exact ⟨m2, by simp only [eligLoop]; rw [if_pos h1]; exact hm2⟩
        · by_cases h2 : ¬ passesPlanIdFilter pf e
          · obtain ⟨m2, hm2⟩ := ih hmemR
            exact ⟨m2, by simp only [eligLoop]; rw [if_neg h1, if_pos h2]; exact hm2⟩
          · by_cases h3 : ¬ passesWaveFilter wf e
            · obtain ⟨m2, hm2⟩ := ih hmemR
              exact ⟨m2, by
                simp only [eligLoop]
                rw [if_neg h1, if_neg h2, if_pos h3]
                exact hm2⟩
            · by_cases h4 : ¬ lowerWavesVerified e plans statuses
              · obtain ⟨m2, hm2⟩ := ih hmemR
                exact ⟨m2, by
                  simp only [eligLoop]
                  rw [if_neg h1, if_neg h2, if_neg h3, if_pos h4]
                  exact hm2⟩
              · cases hde : dependenciesVerified e plans statuses with
                | error em =>
                    exact ⟨em, by
                      simp only [eligLoop]
                      rw [if_neg h1, if_neg h2, if_neg h3, if_neg h4, hde]⟩
                | ok b =>
                    obtain ⟨m2, hm2⟩ := ih hmemR
                    cases b
                    · exact ⟨m2, by
                        simp only [eligLoop]
                        rw [if_neg h1, if_neg h2, if_neg h3, if_neg h4, hde]
                        exact hm2⟩
                    · exact ⟨m2, by
                        simp only [eligLoop]
                        rw [if_neg h1, if_neg h2, if_neg h3, if_neg h4, hde, hm2]⟩

/-- C4 (amended): a pending plan whose depends_on holds a token matching
more than one distinct plan id makes the eligibility computation abort
with the ambiguity error and return no eligible plans, provided the plan
survives the caller filters and the wave barrier, and the ambiguous token
is the first unmet condition its dependency scan reaches; the wave and
plan-id filters run before the dependency check inside the loop, so a
plan the filters exclude raises no error. -/
theorem c4_ambiguity_aborts (store : String → Option PlanState)
    (plans : List ManifestEntry) (wf : Option Int) (pf : Option String)
    (entry : ManifestEntry) (m : String)
    (hmem : entry ∈ plans)
    (hpend : (currentStatusByPlan store plans).lookup entry.planId = some "pending")
    (hpf : passesPlanIdFilter pf entry = true)
    (hwf : passesWaveFilter wf entry = true)
    (hbar : lowerWavesVerified entry plans (currentStatusByPlan store plans) = true)
    (hdep : dependenciesVerified entry plans (currentStatusByPlan store plans) =
      Except.error m) :
    (∃ m2, get_eligible_plans store plans wf pf = Except.error m2) ∧
    ∃ dep ∈ entry.dependsOn,
      2 ≤ (lookupTokenIds (buildDepLookup plans) (normToken dep)).length := by
  constructor
  · exact eligLoop_aborts plans (currentStatusByPlan store plans) wf pf entry m
      hpend hpf hwf hbar hdep plans hmem
  · unfold dependenciesVerified at hdep
    split at hdep
    · exact Except.noConfusion hdep
    · exact checkDeps_error_ambiguous entry (buildDepLookup plans)
        (currentStatusByPlan store plans) entry.dependsOn m hdep

/-- Wave-1 plan a, number 1, mirrored status verified. -/
def c4A : ManifestEntry :=
  { planId := "a", wave := 1, phase := "01", planNumber := 1, priority := 1011,
    status := "verified" }

/-- Wave-1 plan b, also number 1, mirrored status verified: the token 1
now matches two distinct plan ids. -/
def c4B : ManifestEntry :=
  { planId := "b", wave := 1, phase := "02", planNumber := 1, priority := 1021,
    status := "verified" }

/-- Wave-1 pending plan c depending on the ambiguous bare-number token. -/
def c4C : ManifestEntry :=
  { planId := "c", wave := 1, phase := "01", planNumber := 2, priority := 1012,
    dependsOn := ["1"], status := "pending" }

/-- The manifest with an ambiguous dependency token. -/
def c4plans : List ManifestEntry := [c4A, c4B, c4C]

/-- C4 counterexample: the token 1 matches the two distinct plans a and
b, plan c is pending, and the unfiltered computation aborts with the
ambiguity error; yet the same computation filtered by the exact plan
identifier a returns an eligible set (the empty one) without raising,
because the filters run before the dependency check, not after
eligibility. -/
theorem c4_counterexample :
    lookupTokenIds (buildDepLookup c4plans) "1" = ["a", "b"] ∧
    (currentStatusByPlan (fun _ => none) c4plans).lookup "c" = some "pending" ∧
    get_eligible_plans (fun _ => none) c4plans none none =
      Except.error "Ambiguous dependency 1 for c: matches a, b" ∧
    get_eligible_plans (fun _ => none) c4plans none (some "a") = Except.ok [] := by
  refine ⟨by decide, by decide, rfl, rfl⟩

/-- C4 witness: the amended theorem applied to the concrete ambiguous
manifest without filters. -/
theorem c4_ambiguity_aborts_witness :
    (∃ m2, get_eligible_plans (fun _ => none) c4plans none none = Except.error m2) ∧
    ∃ dep ∈ c4C.dependsOn,
      2 ≤ (lookupTokenIds (buildDepLookup c4plans) (normToken dep)).length :=
  c4_ambiguity_aborts (fun _ => none) c4plans none none c4C
    "Ambiguous dependency 1 for c: matches a, b"
    (by decide) (by decide) rfl rfl (by decide) rfl

/-! Claim C5: resume with handoff and takeover. -/

/-- The successful payload of an adapter call, if any. -/
def okPart (r : Except String PlanState) : Option PlanState :=
  match r with
  | .ok s => some s
  | .error _ => none

/-- Status of a successful result. -/
def okStatus (r : Except String PlanState) : Option String := (okPart r).map (·.status)

/-- Lease field of a successful result. -/
def okLock (r : Except String PlanState) : Option (Option Lease) :=
  (okPart r).map (·.lock)

/-- Recovery notes of a successful result. -/
def okNotes (r : Except String PlanState) : Option (List RecoveryNote) :=
  (okPart r).map (·.recoveryNotes)

/-- A transition to executing from any status that allows it. -/
theorem transition_executing_ok (now : Nat) (s : PlanState) (kw : TransitionKwargs)
    (h : "executing" ∈ allowedTargets s.status) :
    transition now s "executing" kw =
      Except.ok (applyKwargs
        { s with status := "executing", updatedAt := now, lastRunAt := some now } kw) := by
  simp only [transition]
  rw [if_neg (not_not_intro h)]
  simp

/-- A blocked state whose lease is unexpired and held by run r1. -/
def c5state : PlanState :=
  { init_state "p" "src" "h" 1 with
      status := "blocked"
      lock := some { runId := some "r1", acquiredAt := some 0, expiresAt := some 100 } }

/-- C5 counterexample: c5state is blocked, passes the drift check (the
source document is absent so the check is skipped), and its lease is
unexpired; resuming it under the same run identity r1 fails with the
already-leased error instead of succeeding, because the handoff branch
only fires for a different run identity while acquire_lease still rejects
an active lease. -/
theorem c5_counterexample :
    c5state.status = "blocked" ∧
    ensureNoSourceDrift none c5state = Except.ok () ∧
    leaseIsExpired 10 { runId := some "r1", acquiredAt := some 0, expiresAt := some 100 } =
      false ∧
    resume_execution 10 3600 none (some { runId := some "r1" }) "fresh" c5state =
      Except.error "Plan p is already leased by run_id=r1" :=
  ⟨rfl, rfl, rfl, rfl⟩

/-- C5 (amended): for every blocked or failed state that passes the drift
check, resume succeeds with the resuming run as lease holder when the
Lease is absent, when it is expired (recording a takeover recovery note
referencing the previous holder), or when it is unexpired under a
different non-empty run identity (recording a handoff recovery note and
clearing the old Lease before acquiring a new one); but when an unexpired
Lease records no run identity, an empty one, or the identity of the
resuming run itself, resume fails with the already-leased error rather than
succeeding. -/
theorem c5_resume (now leaseSeconds : Nat) (currentHash : Option String)
    (execInfo : Option ExecutorInfo) (freshUuid : String) (s : PlanState)
    (hst : s.status = "blocked" ∨ s.status = "failed")
    (hdr : ensureNoSourceDrift currentHash s = Except.ok ()) :
    (s.lock = none →
      okStatus (resume_execution now leaseSeconds currentHash execInfo freshUuid s) =
        some "executing" ∧
      okLock (resume_execution now leaseSeconds currentHash execInfo freshUuid s) =
        some (some (newLease now leaseSeconds (resolveRunId execInfo freshUuid))) ∧
      okNotes (resume_execution now leaseSeconds currentHash execInfo freshUuid s) =
        some s.recoveryNotes) ∧
    (∀ lk, s.lock = some lk → leaseIsExpired now lk = true →
      okStatus (resume_execution now leaseSeconds currentHash execInfo freshUuid s) =
        some "executing" ∧
      okLock (resume_execution now leaseSeconds currentHash execInfo freshUuid s) =
        some (some (newLease now leaseSeconds (resolveRunId execInfo freshUuid))) ∧
      okNotes (resume_execution now leaseSeconds currentHash execInfo freshUuid s) =
        some (s.recoveryNotes ++
          [leaseTakeoverNote now lk (resolveRunId execInfo freshUuid)])) ∧
    (∀ lk cur, s.lock = some lk → leaseIsExpired now lk = false → lk.runId = some cur →
      cur ≠ "" → cur ≠ resolveRunId execInfo freshUuid →
      okStatus (resume_execution now leaseSeconds currentHash execInfo freshUuid s) =
        some "executing" ∧
      okLock (resume_execution now leaseSeconds currentHash execInfo freshUuid s) =
        some (some (newLease now leaseSeconds (resolveRunId execInfo freshUuid))) ∧
      okNotes (resume_execution now leaseSeconds currentHash execInfo freshUuid s) =
        some (s.recoveryNotes ++
          [RecoveryNote.handoff cur now (resolveRunId execInfo freshUuid)])) ∧
    (∀ lk, s.lock = some lk → leaseIsExpired now lk = false →
      (lk.runId = none ∨ lk.runId = some "" ∨
        lk.runId = some (resolveRunId execInfo freshUuid)) →
      resume_execution now leaseSeconds currentHash execInfo freshUuid s =
        Except.error ("Plan " ++ s.planId ++ " is already leased by run_id=" ++
          lk.runId.getD "None")) := by
  have hm : "executing" ∈ allowedTargets s.status := by
    rcases hst with h | h <;> rw [h] <;> decide
  refine ⟨?_, ?_, ?_, ?_⟩
  · intro hnone
    set R : PlanState := { s with lock := some (newLease now leaseSeconds (resolveRunId execInfo freshUuid)), updatedAt := now } with hR
    have hres : resume_execution now leaseSeconds currentHash execInfo freshUuid s =
        transition now R "executing"
          { executor := some execInfo, blockedReason := some none } := by
      rw [hR]
      simp only [resume_execution, acquire_lease, hnone, hdr]
      rw [if_neg (not_not_intro hst)]
    have hm2 : "executing" ∈ allowedTargets R.status := by
      rw [hR]
      exact hm
    rw [transition_executing_ok now R _ hm2] at hres
    refine ⟨?_, ?_, ?_⟩ <;>
      simp [okStatus, okLock, okNotes, okPart, applyKwargs, hres, hR]
  · intro lk hlk hexp
    set R : PlanState := { s with recoveryNotes := s.recoveryNotes ++ [leaseTakeoverNote now lk (resolveRunId execInfo freshUuid)], lock := some (newLease now leaseSeconds (resolveRunId execInfo freshUuid)), updatedAt := now } with hR
    have hres : resume_execution now leaseSeconds currentHash execInfo freshUuid s =
        transition now R "executing"
          { executor := some execInfo, blockedReason := some none } := by
      rw [hR]
      simp only [resume_execution, hdr, hlk]
      rw [if_neg (not_not_intro hst), if_pos hexp]
      simp only [acquire_lease, hlk]
      cases hexpAt : lk.expiresAt with
      | none => rfl
      | some t =>
          have ht : t ≤ now := by
            simpa [leaseIsExpired, hexpAt] using hexp
          simp [show ¬ now < t from by omega]
    have hm2 : "executing" ∈ allowedTargets R.status := by
      rw [hR]
      exact hm
    rw [transition_executing_ok now R _ hm2] at hres
    refine ⟨?_, ?_, ?_⟩ <;>
      simp [okStatus, okLock, okNotes, okPart, applyKwargs, hres, hR]
  · intro lk cur hlk hexp hcur hne hneq
    set R : PlanState := { s with recoveryNotes := s.recoveryNotes ++ [RecoveryNote.handoff cur now (resolveRunId execInfo freshUuid)], lock := some (newLease now leaseSeconds (resolveRunId execInfo freshUuid)), updatedAt := now } with hR
    have hres : resume_execution now leaseSeconds currentHash execInfo freshUuid s =
        transition now R "executing"
          { executor := some execInfo, blockedReason := some none } := by
      rw [hR]
      simp only [resume_execution, hdr, hlk]
      rw [if_neg (not_not_intro hst), if_neg (by simp [hexp])]
      simp only [hcur]
      rw [if_pos ⟨hne, hneq⟩]
      simp only [acquire_lease]
    have hm2 : "executing" ∈ allowedTargets R.status := by
      rw [hR]
      exact hm
    rw [transition_executing_ok now R _ hm2] at hres
    refine ⟨?_, ?_, ?_⟩ <;>
      simp [okStatus, okLock, okNotes, okPart, applyKwargs, hres, hR]
  · intro lk hlk hexp hid
    obtain ⟨t, hexpAt, ht⟩ : ∃ t, lk.expiresAt = some t ∧ now < t := by
      cases hexpAt : lk.expiresAt with
      | none => simp [leaseIsExpired, hexpAt] at hexp
      | some t =>
          refine ⟨t, rfl, ?_⟩
          have h2 := hexp
          simp only [leaseIsExpired, hexpAt, decide_eq_false_iff_not] at h2
          omega
    rcases hid with hid | hid | hid
    · simp only [resume_execution, hdr, hlk]
      rw [if_neg (not_not_intro hst), if_neg (by simp [hexp])]
      simp only [hid, acquire_lease, hlk, hexpAt]
      simp [ht, hid]
    · simp only [resume_execution, hdr, hlk]
      rw [if_neg (not_not_intro hst), if_neg (by simp [hexp])]
      simp only [hid]
      rw [if_neg (by simp)]
      simp only [acquire_lease, hlk, hexpAt]
      simp [ht, hid]
    · simp only [resume_execution, hdr, hlk]
      rw [if_neg (not_not_intro hst), if_neg (by simp [hexp])]
      simp only [hid]
      rw [if_neg (by simp)]
      simp only [acquire_lease, hlk, hexpAt]
      simp [ht, hid]

/-- C5 witness: resuming the blocked c5state under a different run
identity at the same instant records a handoff note and succeeds with the
new run as holder. -/
theorem c5_resume_witness :
    okStatus (resume_execution 10 3600 none (some { runId := some "r2" }) "fresh" c5state) =
      some "executing" ∧
    okLock (resume_execution 10 3600 none (some { runId := some "r2" }) "fresh" c5state) =
      some (some (newLease 10 3600 "r2")) ∧
    okNotes (resume_execution 10 3600 none (some { runId := some "r2" }) "fresh" c5state) =
      some [RecoveryNote.handoff "r1" 10 "r2"] :=
  (c5_resume 10 3600 none (some { runId := some "r2" }) "fresh" c5state
      (Or.inl rfl) rfl).2.2.1
    { runId := some "r1", acquiredAt := some 0, expiresAt := some 100 }
    "r1" rfl rfl rfl (by decide) (by decide)

/-! Claim C6: task completion and cursor advance. -/

/-- The scenario start state: an executing plan with two tasks. -/
def c6p1 : PlanState := { init_state "p1" "src" "h" 2 with status := "executing" }

/-- C6: for every executing state, completing task n adds n to
completed_tasks only if not already present, and sets the cursor to
(n+1, 0) when n+1 is at most total_tasks and to (n, -1) otherwise; in
particular with total_tasks = 2, completing task 1 yields cursor (2, 0)
and then completing task 2 yields cursor (2, -1). -/
theorem c6_complete_task (now : Nat) (n : Int) (s : PlanState)
    (hex : s.status = "executing") :
    (completeTaskOp now n s = Except.ok (complete_task now s n)) ∧
    (s.completedTasks.contains n = true →
      (complete_task now s n).completedTasks = s.completedTasks) ∧
    (s.completedTasks.contains n = false →
      List.Perm (complete_task now s n).completedTasks (s.completedTasks ++ [n])) ∧
    ((complete_task now s n).cursor =
      some (if n + 1 ≤ s.totalTasks then { task := n + 1, step := 0 }
        else { task := n, step := -1 })) ∧
    (∃ sA sB, completeTaskOp 1 1 c6p1 = Except.ok sA ∧
      sA.cursor = some { task := 2, step := 0 } ∧
      completeTaskOp 2 2 sA = Except.ok sB ∧
      sB.cursor = some { task := 2, step := -1 } ∧
      sB.completedTasks = [1, 2]) := by
  refine ⟨by simp [completeTaskOp, hex], ?_, ?_, rfl, ?_⟩
  · intro hc
    simp only [complete_task]
    rw [if_pos hc]
  · intro hc
    simp only [complete_task]
    rw [if_neg (by rw [hc]; simp)]
    exact List.perm_insertionSort _ _
  · exact ⟨_, _, rfl, rfl, rfl, rfl, rfl⟩

/-- C6 witness: the concrete two-task scenario extracted from the claim
theorem at the executing start state. -/
theorem c6_complete_task_witness :
    ∃ sA sB, completeTaskOp 1 1 c6p1 = Except.ok sA ∧
      sA.cursor = some { task := 2, step := 0 } ∧
      completeTaskOp 2 2 sA = Except.ok sB ∧
      sB.cursor = some { task := 2, step := -1 } ∧
      sB.completedTasks = [1, 2] :=
  (c6_complete_task 1 1 c6p1 rfl).2.2.2.2

/-! Claim C7: the completed_tasks invariant. -/

/-- applyKwargs never touches completed_tasks or total_tasks. -/
theorem applyKwargs_ct (s : PlanState) (kw : TransitionKwargs) :
    (applyKwargs s kw).completedTasks = s.completedTasks ∧
    (applyKwargs s kw).totalTasks = s.totalTasks := by
  rcases kw with ⟨e, br, bs, fr⟩
  cases e <;> cases br <;> cases bs <;> cases fr <;> exact ⟨rfl, rfl⟩

/-- The invariant transfers along unchanged completed_tasks and
total_tasks. -/
theorem ctInvariant_of_fields (s s2 : PlanState)
    (h1 : s2.completedTasks = s.completedTasks) (h2 : s2.totalTasks = s.totalTasks) :
    ctInvariant s → ctInvariant s2 := by
  rintro ⟨a, b, c⟩
  refine ⟨h1 ▸ a, h1 ▸ b, ?_⟩
  intro t ht
  rw [h1] at ht
  rw [h2]
  exact c t ht

/-- A successful transition never touches completed_tasks or
total_tasks. -/
theorem transition_fields (now : Nat) (s : PlanState) (ns : String)
    (kw : TransitionKwargs) (s2 : PlanState)
    (h : transition now s ns kw = Except.ok s2) :
    s2.completedTasks = s.completedTasks ∧ s2.totalTasks = s.totalTasks := by
  simp only [transition] at h
  split at h
  · exact Except.noConfusion h
  · injection h with h
    subst h
    constructor
    · rw [(applyKwargs_ct _ kw).1]
      split
      · rfl
      · split <;> rfl
    · rw [(applyKwargs_ct _ kw).2]
      split
      · rfl
      · split <;> rfl

/-- complete_task preserves deduplication and sortedness
unconditionally. -/
theorem complete_task_nodup_sorted (now : Nat) (s : PlanState) (n : Int)
    (hnd : s.completedTasks.Nodup) (hsrt : List.Sorted (· ≤ ·) s.completedTasks) :
    (complete_task now s n).completedTasks.Nodup ∧
    List.Sorted (· ≤ ·) (complete_task now s n).completedTasks := by
  by_cases hc : s.completedTasks.contains n = true
  · rw [show (complete_task now s n).completedTasks = s.completedTasks by
      simp only [complete_task]; rw [if_pos hc]]
    exact ⟨hnd, hsrt⟩
  · have hcf : s.completedTasks.contains n = false := by
      cases h2 : s.completedTasks.contains n
      · rfl
      · exact absurd h2 hc
    have hnm : n ∉ s.completedTasks := by simpa using hcf
    have hres : (complete_task now s n).completedTasks =
        List.insertionSort (· ≤ ·) (s.completedTasks ++ [n]) := by
      simp only [complete_task]; rw [if_neg (by rw [hcf]; simp)]
    rw [hres]
    constructor
    · exact (List.perm_insertionSort _ _).nodup_iff.mpr
        (by simp [List.nodup_append, hnd, hnm])
    · exact List.sorted_insertionSort _ _

/-- complete_task with an in-range task index preserves the whole
invariant. -/
theorem complete_task_invariant (now : Nat) (s : PlanState) (n : Int)
    (h1 : 1 ≤ n) (h2 : n ≤ s.totalTasks) (hinv : ctInvariant s) :
    ctInvariant (complete_task now s n) := by
  obtain ⟨hnd, hsrt, hb⟩ := hinv
  obtain ⟨hnd2, hsrt2⟩ := complete_task_nodup_sorted now s n hnd hsrt
  refine ⟨hnd2, hsrt2, ?_⟩
  intro t ht
  have htt : (complete_task now s n).totalTasks = s.totalTasks := rfl
  rw [htt]
  by_cases hc : s.completedTasks.contains n = true
  · rw [show (complete_task now s n).completedTasks = s.completedTasks by
      simp only [complete_task]; rw [if_pos hc]] at ht
    exact hb t ht
  · have hcf : s.completedTasks.contains n = false := by
      cases hh : s.completedTasks.contains n
      · rfl
      · exact absurd hh hc
    rw [show (complete_task now s n).completedTasks =
        List.insertionSort (· ≤ ·) (s.completedTasks ++ [n]) by
      simp only [complete_task]; rw [if_neg (by rw [hcf]; simp)]] at ht
    have := (List.perm_insertionSort (· ≤ ·) (s.completedTasks ++ [n])).mem_iff.mp ht
    rcases List.mem_append.mp this with hm | hm
    · exact hb t hm
    · rw [List.mem_singleton.mp hm]
      exact ⟨h1, h2⟩

/-- advance_step never touches completed_tasks or total_tasks. -/
theorem advance_step_fields (now : Nat) (s : PlanState) (st : Int) :
    (advance_step now s st).completedTasks = s.completedTasks ∧
    (advance_step now s st).totalTasks = s.totalTasks := by
  cases h : s.cursor <;> simp [advance_step, h]

/-- A successful acquire_lease never touches completed_tasks or
total_tasks. -/
theorem acquire_lease_fields (now ls : Nat) (s : PlanState) (r : String)
    (s2 : PlanState) (h : acquire_lease now ls s r = Except.ok s2) :
    s2.completedTasks = s.completedTasks ∧ s2.totalTasks = s.totalTasks := by
  simp only [acquire_lease] at h
  split at h
  · injection h with h
    subst h
    exact ⟨rfl, rfl⟩
  · split at h
    · split at h
      · exact Except.noConfusion h
      · injection h with h
        subst h
        exact ⟨rfl, rfl⟩
    · injection h with h
      subst h
      exact ⟨rfl, rfl⟩

/-- A successful renew_lease never touches completed_tasks or
total_tasks. -/
theorem renew_lease_fields (now ls : Nat) (s : PlanState) (r : String)
    (s2 : PlanState) (h : renew_lease now ls s r = Except.ok s2) :
    s2.completedTasks = s.completedTasks ∧ s2.totalTasks = s.totalTasks := by
  simp only [renew_lease] at h
  split at h
  · exact Except.noConfusion h
  · split at h
    · exact Except.noConfusion h
    · injection h with h
      subst h
      exact ⟨rfl, rfl⟩

/-- The legacy migration never touches completed_tasks or total_tasks. -/
theorem migrate_fields (s : PlanState) :
    (migrate_legacy_plan_state s).completedTasks = s.completedTasks ∧
    (migrate_legacy_plan_state s).totalTasks = s.totalTasks := by
  simp only [migrate_legacy_plan_state]
  constructor
  · split
    · split <;> rfl
    · split <;> rfl
  · split
    · split <;> rfl
    · split <;> rfl

/-- Every item accepted by the patch validator loop is positive and,
when total_tasks is non-zero, bounded by it. -/
theorem checkCompletedItems_ok (total : Int) :
    ∀ (l : List Int) (u : Unit), checkCompletedItems l total = Except.ok u →
      ∀ i ∈ l, 1 ≤ i ∧ (total ≠ 0 → i ≤ total) := by
  intro l
  induction l with
  | nil =>
      intro _ _ i hi
      cases hi
  | cons a rest ih =>
      intro u h i hi
      simp only [checkCompletedItems] at h
      split at h
      · exact Except.noConfusion h
      · split at h
        · exact Except.noConfusion h
        · rename_i hlt hbig
          rcases List.mem_cons.mp hi with rfl | hi
          · constructor
            · omega
            · intro hne
              by_contra hgt
              exact hbig ⟨hne, by omega⟩
          · exact ih u h i hi

/-- The output of the patch validator is deduplicated, sorted, positive
and bounded whenever total_tasks is non-zero. -/
theorem validateCompletedTasks_ok (v : List Int) (total : Int) (l : List Int)
    (h : validateCompletedTasks v total = Except.ok l) :
    l.Nodup ∧ List.Sorted (· ≤ ·) l ∧
      ∀ i ∈ l, 1 ≤ i ∧ (total ≠ 0 → i ≤ total) := by
  simp only [validateCompletedTasks] at h
  split at h
  · exact Except.noConfusion h
  · rename_i u hchk
    injection h with h
    subst h
    refine ⟨?_, List.sorted_insertionSort _ _, ?_⟩
    · exact (List.perm_insertionSort _ _).nodup_iff.mpr (List.nodup_dedup v)
    · intro i hi
      have hid : i ∈ v.dedup := (List.perm_insertionSort _ _).mem_iff.mp hi
      exact checkCompletedItems_ok total v u hchk i (List.mem_dedup.mp hid)

/-- A successful start_execution never touches completed_tasks or
total_tasks. -/
theorem start_execution_fields (now ls : Nat) (ch : Option String)
    (ei : Option ExecutorInfo) (fu : String) (gs : Option String)
    (s s2 : PlanState) (h : start_execution now ls ch ei fu gs s = Except.ok s2) :
    s2.completedTasks = s.completedTasks ∧ s2.totalTasks = s.totalTasks := by
  simp only [start_execution] at h
  split at h
  · exact Except.noConfusion h
  · split at h
    · exact Except.noConfusion h
    · split at h
      · exact Except.noConfusion h
      · rename_i s1 hacq
        obtain ⟨t1, t2⟩ := transition_fields _ _ _ _ _ h
        obtain ⟨a1, a2⟩ := acquire_lease_fields _ _ _ _ _ hacq
        constructor
        · rw [t1]
          exact a1
        · rw [t2]
          exact a2

/-- A successful resume_execution never touches completed_tasks or
total_tasks. -/
theorem resume_execution_fields (now ls : Nat) (ch : Option String)
    (ei : Option ExecutorInfo) (fu : String)
    (s s2 : PlanState) (h : resume_execution now ls ch ei fu s = Except.ok s2) :
    s2.completedTasks = s.completedTasks ∧ s2.totalTasks = s.totalTasks := by
  simp only [resume_execution] at h
  split at h
  · exact Except.noConfusion h
  · split at h
    · exact Except.noConfusion h
    · split at h
      · exact Except.noConfusion h
      · rename_i s1 hacq
        obtain ⟨t1, t2⟩ := transition_fields _ _ _ _ _ h
        obtain ⟨a1, a2⟩ := acquire_lease_fields _ _ _ _ _ hacq
        constructor
        · rw [t1, a1]
          split
          · split
            · rfl
            · split
              · split <;> rfl
              · rfl
          · rfl
        · rw [t2, a2]
          split
          · split
            · rfl
            · split
              · split <;> rfl
              · rfl
          · rfl

/-- A successful mark_verified never touches completed_tasks or
total_tasks. -/
theorem mark_verified_fields (now : Nat) (gs : Option String) (s s2 : PlanState)
    (h : mark_verified now gs s = Except.ok s2) :
    s2.completedTasks = s.completedTasks ∧ s2.totalTasks = s.totalTasks := by
  simp only [mark_verified] at h
  split at h
  · exact Except.noConfusion h
  · split at h
    · exact Except.noConfusion h
    · split at h
      · exact Except.noConfusion h
      · split at h
        · exact Except.noConfusion h
        · rename_i s3 htr
          injection h with h
          subst h
          obtain ⟨t1, t2⟩ := transition_fields _ _ _ _ _ htr
          exact ⟨t1, t2⟩

/-- A successful mark_failed never touches completed_tasks or
total_tasks. -/
theorem mark_failed_fields (now : Nat) (s : PlanState) (r : String) (s2 : PlanState)
    (h : mark_failed now s r = Except.ok s2) :
    s2.completedTasks = s.completedTasks ∧ s2.totalTasks = s.totalTasks := by
  simp only [mark_failed] at h
  split at h
  · exact Except.noConfusion h
  · rename_i s3 htr
    injection h with h
    subst h
    obtain ⟨t1, t2⟩ := transition_fields _ _ _ _ _ htr
    exact ⟨t1, t2⟩

/-- A successful mark_blocked never touches completed_tasks or
total_tasks. -/
theorem mark_blocked_fields (now : Nat) (s : PlanState) (r sev : String)
    (s2 : PlanState) (h : mark_blocked now s r sev = Except.ok s2) :
    s2.completedTasks = s.completedTasks ∧ s2.totalTasks = s.totalTasks := by
  simp only [mark_blocked] at h
  exact transition_fields _ _ _ _ _ h

/-- The executing state refuting unconditional invariant preservation:
the invariant holds, then completing out-of-range task 5 breaks it. -/
def c7state : PlanState := { init_state "p" "src" "h" 2 with status := "executing" }

/-- C7 counterexample: c7state satisfies the completed_tasks invariant,
but complete_task with task index 5 (greater than total_tasks = 2)
appends 5 without any bound check, breaking the invariant; the mutation
is reachable through the public complete-task operation, which only
requires executing status. -/
theorem c7_counterexample :
    ctInvariant c7state ∧
    ¬ ctInvariant (complete_task 0 c7state 5) ∧
    completeTaskOp 0 5 c7state = Except.ok (complete_task 0 c7state 5) := by
  refine ⟨⟨List.nodup_nil, List.sorted_nil, by intro t ht; cases ht⟩, ?_, rfl⟩
  intro h
  have h5 := h.2.2 5 (by
    rw [show (complete_task 0 c7state 5).completedTasks = [5] from rfl]
    simp)
  rw [show (complete_task 0 c7state 5).totalTasks = 2 from rfl] at h5
  omega

/-- C7 (amended): every mutating operation preserves deduplication and
sortedness of completed_tasks; positivity and the bound by total_tasks
are preserved by every operation except complete_task, which enforces no
bound on the supplied task index and preserves the full invariant only
when the index lies in 1..total_tasks; the validated-patch path always
returns a deduplicated sorted positive list, bounded whenever
total_tasks is non-zero. -/
theorem c7_invariant :
    (∀ now s ns kw s2, transition now s ns kw = Except.ok s2 →
      ctInvariant s → ctInvariant s2) ∧
    (∀ (now : Nat) (s : PlanState) (n : Int), s.completedTasks.Nodup →
      List.Sorted (· ≤ ·) s.completedTasks →
      (complete_task now s n).completedTasks.Nodup ∧
        List.Sorted (· ≤ ·) (complete_task now s n).completedTasks) ∧
    (∀ (now : Nat) (s : PlanState) (n : Int), 1 ≤ n → n ≤ s.totalTasks →
      ctInvariant s → ctInvariant (complete_task now s n)) ∧
    (∀ now s st, ctInvariant s → ctInvariant (advance_step now s st)) ∧
    (∀ now s tier cmd ec lp, ctInvariant s →
      ctInvariant (record_verification now s tier cmd ec lp)) ∧
    (∀ now ls s r s2, acquire_lease now ls s r = Except.ok s2 →
      ctInvariant s → ctInvariant s2) ∧
    (∀ now ls s r s2, renew_lease now ls s r = Except.ok s2 →
      ctInvariant s → ctInvariant s2) ∧
    (∀ now s, ctInvariant s → ctInvariant (release_lease now s)) ∧
    (∀ now s, ctInvariant s → ctInvariant (write_state now s)) ∧
    (∀ s, ctInvariant s → ctInvariant (migrate_legacy_plan_state s)) ∧
    (∀ v total l, validateCompletedTasks v total = Except.ok l →
      l.Nodup ∧ List.Sorted (· ≤ ·) l ∧
        ∀ i ∈ l, 1 ≤ i ∧ (total ≠ 0 → i ≤ total)) ∧
    (∀ now gs s s2, mark_verified now gs s = Except.ok s2 →
      ctInvariant s → ctInvariant s2) ∧
    (∀ now s r s2, mark_failed now s r = Except.ok s2 →
      ctInvariant s → ctInvariant s2) ∧
    (∀ now s r sev s2, mark_blocked now s r sev = Except.ok s2 →
      ctInvariant s → ctInvariant s2) ∧
    (∀ (now : Nat) (n : Int) (s s2 : PlanState),
      completeTaskOp now n s = Except.ok s2 → 1 ≤ n → n ≤ s.totalTasks →
      ctInvariant s → ctInvariant s2) ∧
    (∀ now ls ch ei fu gs s s2, start_execution now ls ch ei fu gs s = Except.ok s2 →
      ctInvariant s → ctInvariant s2) ∧
    (∀ now ls ch ei fu s s2, resume_execution now ls ch ei fu s = Except.ok s2 →
      ctInvariant s → ctInvariant s2) := by
  refine ⟨?_, ?_, ?_, ?_, ?_, ?_, ?_, ?_, ?_, ?_, ?_, ?_, ?_, ?_, ?_, ?_, ?_⟩
  · intro now s ns kw s2 h
    obtain ⟨h1, h2⟩ := transition_fields now s ns kw s2 h
    exact ctInvariant_of_fields s s2 h1 h2
  · exact fun now s n h1 h2 => complete_task_nodup_sorted now s n h1 h2
  · exact fun now s n h1 h2 hinv => complete_task_invariant now s n h1 h2 hinv
  · intro now s st
    obtain ⟨h1, h2⟩ := advance_step_fields now s st
    exact ctInvariant_of_fields s _ h1 h2
  · exact fun now s tier cmd ec lp => ctInvariant_of_fields s _ rfl rfl
  · intro now ls s r s2 h
    obtain ⟨h1, h2⟩ := acquire_lease_fields now ls s r s2 h
    exact ctInvariant_of_fields s s2 h1 h2
  · intro now ls s r s2 h
    obtain ⟨h1, h2⟩ := renew_lease_fields now ls s r s2 h
    exact ctInvariant_of_fields s s2 h1 h2
  · exact fun now s => ctInvariant_of_fields s _ rfl rfl
  · exact fun now s => ctInvariant_of_fields s _ rfl rfl
  · intro s
    obtain ⟨h1, h2⟩ := migrate_fields s
    exact ctInvariant_of_fields s _ h1 h2
  · exact fun v total l h => validateCompletedTasks_ok v total l h
  · intro now gs s s2 h
    obtain ⟨h1, h2⟩ := mark_verified_fields now gs s s2 h
    exact ctInvariant_of_fields s s2 h1 h2
  · intro now s r s2 h
    obtain ⟨h1, h2⟩ := mark_failed_fields now s r s2 h
    exact ctInvariant_of_fields s s2 h1 h2
  · intro now s r sev s2 h
    obtain ⟨h1, h2⟩ := mark_blocked_fields now s r sev s2 h
    exact ctInvariant_of_fields s s2 h1 h2
  · intro now n s s2 h h1 h2 hinv
    simp only [completeTaskOp] at h
    split at h
    · exact Except.noConfusion h
    · injection h with h
      subst h
      exact complete_task_invariant now s n h1 h2 hinv
  · intro now ls ch ei fu gs s s2 h
    obtain ⟨h1, h2⟩ := start_execution_fields now ls ch ei fu gs s s2 h
    exact ctInvariant_of_fields s s2 h1 h2
  · intro now ls ch ei fu s s2 h
    obtain ⟨h1, h2⟩ := resume_execution_fields now ls ch ei fu s s2 h
    exact ctInvariant_of_fields s s2 h1 h2

/-- C7 witness: completing in-range task 1 on the executing two-task
state preserves the invariant. -/
theorem c7_invariant_witness : ctInvariant (complete_task 0 c7state 1) :=
  c7_invariant.2.2.1 0 c7state 1 (by decide) (by decide)
    ⟨List.nodup_nil, List.sorted_nil, by intro t ht; cases ht⟩

/-! Claim C8: the write/read round trip. -/

/-- A current-version failed state carrying a stale blocked_reason and no
failure_reason. -/
def c8state : PlanState :=
  { init_state "p" "src" "h" 1 with
      status := "failed"
      blockedReason := some "x" }

/-- C8 counterexample: c8state is at the current schema version, yet
writing it and reading it back moves blocked_reason into failure_reason
(the legacy normalization applies on every read), so the round trip is
not field-for-field equality up to updated_at. -/
theorem c8_counterexample :
    c8state.schemaVersion = CURRENT_SCHEMA_VERSION ∧
    c8state.blockedReason = some "x" ∧
    c8state.failureReason = none ∧
    (roundTrip 5 c8state).blockedReason = none ∧
    (roundTrip 5 c8state).failureReason = some "x" :=
  ⟨rfl, rfl, rfl, rfl, rfl⟩

/-- C8 (amended): for every PlanState at the current schema version that
is not a failed state carrying a non-empty blocked_reason with an empty
failure_reason, writing it and reading the same file back yields a state
equal field-for-field to the one written, except for the refreshed
updated_at timestamp; on such failed states the read-side migration
additionally moves the blocked reason into failure_reason, and on older
schema versions it bumps schema_version. -/
theorem c8_round_trip (now : Nat) (s : PlanState)
    (hv : s.schemaVersion = CURRENT_SCHEMA_VERSION)
    (hnm : ¬(s.status = "failed" ∧ ¬ strTruthy s.failureReason ∧
      strTruthy s.blockedReason)) :
    roundTrip now s = { s with updatedAt := now } := by
  simp only [roundTrip, write_state, read_back, migrate_legacy_plan_state]
  rw [if_neg hnm]
  rw [show ({ s with updatedAt := now } : PlanState).schemaVersion = s.schemaVersion
    from rfl, hv]
  rw [if_neg (by decide)]

/-- C8 witness: a fresh pending state round-trips to itself with only
updated_at refreshed. -/
theorem c8_round_trip_witness :
    roundTrip 7 (init_state "p" "src" "h" 1) =
      { init_state "p" "src" "h" 1 with updatedAt := 7 } :=
  c8_round_trip 7 (init_state "p" "src" "h" 1) rfl (by decide)

/-! Claim C9: mark_blocked. -/

/-- C9: for every executing state, mark_blocked records the blocked
reason, sets the severity to the supplied value when it is one of
critical, high, medium, low and otherwise defaults it to high (the
mid-level fallback of the four-level scale), clears any failure reason,
and leaves the lock field unchanged. -/
theorem c9_mark_blocked (now : Nat) (s : PlanState) (reason severity : String)
    (hex : s.status = "executing") :
    ∃ s2, mark_blocked now s reason severity = Except.ok s2 ∧
      s2.status = "blocked" ∧
      s2.blockedReason = some reason ∧
      s2.blockedSeverity =
        some (if VALID_SEVERITIES.contains severity then severity else "high") ∧
      s2.failureReason = none ∧
      s2.lock = s.lock := by
  refine ⟨{ s with status := "blocked", updatedAt := now, blockedReason := some reason, blockedSeverity := some (if VALID_SEVERITIES.contains severity then severity else "high"), failureReason := none }, ?_, rfl, rfl, rfl, rfl, rfl⟩
  simp only [mark_blocked, transition]
  rw [if_neg (by rw [hex]; decide)]
  rfl

/-- An executing state holding a live lease. -/
def c9state : PlanState :=
  { init_state "p" "src" "h" 1 with
      status := "executing"
      lock := some { runId := some "r", acquiredAt := some 0, expiresAt := some 50 } }

/-- C9 witness: blocking with an invalid severity defaults it to high
and leaves the lease in place. -/
theorem c9_mark_blocked_witness :
    ∃ s2, mark_blocked 3 c9state "why" "bogus" = Except.ok s2 ∧
      s2.status = "blocked" ∧ s2.blockedReason = some "why" ∧
      s2.blockedSeverity = some "high" ∧ s2.failureReason = none ∧
      s2.lock = some { runId := some "r", acquiredAt := some 0, expiresAt := some 50 } := by
  obtain ⟨s2, h1, h2, h3, h4, h5, h6⟩ := c9_mark_blocked 3 c9state "why" "bogus" rfl
  refine ⟨s2, h1, h2, h3, ?_, h5, ?_⟩
  · rw [h4]
    rfl
  · rw [h6]
    rfl

/-! Claim C10: the owner check on filesystem lock release. -/

/-- C10 counterexample: an unparseable lock file (payload none) records
no owner at all, yet release deletes it; so deletion is not restricted to
a matching owner_id (a different recorded owner is indeed kept). -/
theorem c10_counterexample :
    releaseLockDeletes none "owner-a" = true ∧
    Option.bind (none : Option (List (String × String))) (fun d => d.lookup "owner_id") ≠
      some "owner-a" ∧
    releaseLockDeletes (some [("owner_id", "other")]) "owner-a" = false := by
  refine ⟨rfl, by simp, rfl⟩

/-- C10 (amended): on release the lock file is deleted exactly when its
content does not parse to a non-empty object whose owner_id differs from
the releasing acquirer: a matching owner_id is deleted as the claim
states, but missing, unparseable or empty-object content is deleted as
well; any parseable non-empty object recording a different (or absent)
owner_id leaves the lock file in place. -/
theorem c10_release_lock (payload : Option (List (String × String))) (owner : String) :
    (releaseLockDeletes payload owner = true ↔
      payload = none ∨ ∃ d, payload = some d ∧
        (d = [] ∨ d.lookup "owner_id" = some owner)) ∧
    (∀ d other, payload = some d → d.lookup "owner_id" = some other → other ≠ owner →
      releaseLockDeletes payload owner = false) := by
  constructor
  · cases payload with
    | none => simp [releaseLockDeletes]
    | some d =>
        simp only [releaseLockDeletes]
        constructor
        · intro h
          refine Or.inr ⟨d, rfl, ?_⟩
          by_contra hcon
          push_neg at hcon
          simp [hcon.1, hcon.2] at h
        · rintro (h | ⟨d2, hd2, h⟩)
          · exact Option.noConfusion h
          · injection hd2 with hd2
            subst hd2
            rcases h with h | h
            · simp [h]
            · simp [h]
  · intro d other hp hl hne
    subst hp
    have hdne : d ≠ [] := by
      rintro rfl
      simp [List.lookup] at hl
    simp [releaseLockDeletes, hdne, hl, hne]

/-- C10 witness: a lock file naming a different owner is left in place. -/
theorem c10_release_lock_witness :
    releaseLockDeletes (some [("owner_id", "z")]) "o" = false :=
  (c10_release_lock (some [("owner_id", "z")]) "o").2 [("owner_id", "z")] "z" rfl rfl
    (by decide)

end GsdBridge
